import Mathlib

/-!
Verification of the Manthan classroom service (`src/routes/api/classrooms.js`)
against its natural-language specification.

The route handlers are shallowly embedded as pure Lean functions over an
explicit database state (a list of classroom documents).  The mongoose models
(`models/Classroom.js`, `models/User.js`) and the auth middleware are not part
of the reviewed sources; they are modelled from the spec where they matter and
each such definition is marked `Modelled from the spec:` in its doc comment.
The auth middleware only injects the caller's id, so every handler takes a
`caller : Nat` argument.
-/

namespace Manthan

/-- Modelled from the spec: `models/User.js` is not among the reviewed sources.
Per spec §3 a User is an opaque identity: an id plus profile fields, with a
credential (password) field that the service strips before returning records. -/
structure User where
  id : Nat
  name : String
  email : String
  password : String
deriving Repr, DecidableEq

/-- A user record as returned by mongoose `.select('-password')`: the identity
record with the credential field removed. -/
structure PublicUser where
  id : Nat
  name : String
  email : String
deriving Repr, DecidableEq

/-- The effect of `User.findById(id).select('-password')` on a found record. -/
def User.selectMinusPassword (u : User) : PublicUser :=
  { id := u.id, name := u.name, email := u.email }

/-- Modelled from the spec: `models/Classroom.js` is not among the reviewed
sources.  Per spec §3 a Classroom has a `code` (random alphanumeric join code),
display metadata `title`, `subject`, `subCode`, a `cover` reference, an
`author` (the creating user's identity, stored by the create route as the user
record minus password), and `joinedUsers`, the membership list of user ids.
`id` stands for the document's `_id`.  The schema has no other paths; in
particular it has no `users` path and no lower-case `subcode` path. -/
structure Classroom where
  id : Nat
  code : String
  title : String
  subject : String
  subCode : String
  cover : String
  author : PublicUser
  joinedUsers : List Nat
deriving Repr, DecidableEq

/-- Reading the non-schema path `users` on a classroom document.  The join and
list-members handlers write `classroom.users`, but the Classroom schema has no
`users` field (spec §3: the membership list is `joinedUsers`), so a mongoose
document yields `undefined` there — modelled as `none`. -/
def Classroom.usersPath (_c : Classroom) : Option (List Nat) := none

/-- An HTTP response of the classroom service: the JSON payloads the handlers
actually send, tagged by shape. -/
inductive Response where
  | okClassroom (c : Classroom)
  | okClassrooms (cs : List Classroom)
  | okUsers (us : List PublicUser)
  | okMsg (msg : String)
  | okNull
  | badRequest (msg : String)
  | validationErrors (msgs : List String)
  | serverError
deriving Repr, DecidableEq

/-- The HTTP status code each response is sent with. -/
def Response.status : Response → Nat
  | .badRequest _ => 400
  | .validationErrors _ => 400
  | .serverError => 500
  | _ => 200

/-- Mongoose `findOneAndUpdate(filter, update, {new: true})`: update the first
document matching `p` by `f`, returning the updated document (or `none` when
no document matches, in which case the handler gets `null`) together with the
new database state. -/
def findOneAndUpdate {α : Type} (p : α → Bool) (f : α → α) : List α → Option α × List α
  | [] => (none, [])
  | x :: xs =>
    if p x then (some (f x), f x :: xs)
    else
      let r := findOneAndUpdate p f xs
      (r.1, x :: r.2)

/-- `GET /api/classroom/` — list the caller's classrooms.  The handler queries
`Classroom.find({joinedUsers: caller})` and guards the result with
`if (!classrooms)`; `find` resolves to an array, and in JavaScript an array is
an object and objects are always truthy, so the guard is false even for the
empty result — `jsArrayIsFalsy` records that fact. -/
def jsArrayIsFalsy {α : Type} (_xs : List α) : Bool := false

def listClassrooms (db : List Classroom) (caller : Nat) : Response :=
  let classrooms := db.filter (fun c => c.joinedUsers.contains caller)
  if jsArrayIsFalsy classrooms then
    .badRequest "There is no classes for this user"
  else
    .okClassrooms classrooms

/-- Modelled from the spec: the external library call `randomatic('aA0', 6)`
draws each character from lower-case letters, upper-case letters and digits
(spec §4.1: character set upper+lower letters and digits). -/
def randomaticChars : List Char :=
  ("abcdefghijklmnopqrstuvwxyz" ++ "ABCDEFGHIJKLMNOPQRSTUVWXYZ" ++ "0123456789").toList

/-- Modelled from the spec: `randomatic(pattern, len)` returns a string of
`len` characters, each drawn from the pattern's character set; `pick` stands
for the library's sequence of random draws. -/
def randomaticAA0 (len : Nat) (pick : Nat → Fin 62) : String :=
  String.mk ((List.range len).map fun i =>
    randomaticChars.get (Fin.cast (by rfl) (pick i)))

/-- `POST /api/classroom/` — create a classroom.  The handler loads the caller
via `User.findById(req.user.id).select('-password')`; if no user is found the
subsequent `author._id` access throws on `null` and the catch sends a 500.
Otherwise it draws a 6-character code, builds the document with
`author = <caller record>` and `joinedUsers = [author._id]`, saves it and
responds with the new record. -/
def createClassroom (usersDb : List User) (db : List Classroom) (caller : Nat)
    (title subject subCode cover : String) (pick : Nat → Fin 62) (newId : Nat) :
    Response × List Classroom :=
  match usersDb.find? (fun u => u.id == caller) with
  | none => (.serverError, db)
  | some u =>
    let author := u.selectMinusPassword
    let joinedUsers := [author.id]
    let code := randomaticAA0 6 pick
    let newClassroom : Classroom :=
      { id := newId, code := code, title := title, subject := subject,
        subCode := subCode, cover := cover, author := author,
        joinedUsers := joinedUsers }
    (.okClassroom newClassroom, db ++ [newClassroom])

/-- `GET /api/classroom/:code` — membership-gated lookup: the query filters on
both the code and `joinedUsers: caller`, and a miss of either kind gets the
same `Class does not exist.` message. -/
def getClassroomByCode (db : List Classroom) (caller : Nat) (code : String) :
    Response :=
  match db.find? (fun c => c.code == code && c.joinedUsers.contains caller) with
  | none => .badRequest "Class does not exist."
  | some classroom => .okClassroom classroom

/-- `POST /api/classroom/:code` — join by code.  The lookup is by code alone.
The duplicate-membership guard then reads `classroom.users`, a path the schema
does not have, so `.find` is called on `undefined`: the TypeError lands in the
catch block, which sends a 500.  The conflict branch and the
`$push: {joinedUsers: caller}` below it are therefore unreachable; they are
kept here as the faithful translation of that dead code. -/
def joinClassroom (db : List Classroom) (caller : Nat) (code : String) :
    Response × List Classroom :=
  match db.find? (fun c => c.code == code) with
  | none => (.badRequest "Class does not exist.", db)
  | some classroom =>
    match classroom.usersPath with
    | none => (.serverError, db)
    | some us =>
      if us.contains caller then
        (.badRequest "Class already exist.", db)
      else
        match findOneAndUpdate (fun c => c.code == code)
            (fun c => { c with joinedUsers := c.joinedUsers ++ [caller] }) db with
        | (some joined, db2) => (.okClassroom joined, db2)
        | (none, db2) => (.okNull, db2)

/-- The `$set` document of the edit handler: `{title, subcode, subject}`.  The
lower-case `subcode` is not a path of the Classroom schema (spec §3: the field
is `subCode`), and mongoose strict mode silently drops unknown paths from
updates, so only `title` and `subject` are written and `subCode` keeps its
stored value. -/
def applyEditSet (title subject _subcode : String) (c : Classroom) : Classroom :=
  { c with title := title, subject := subject }

/-- `PATCH /api/classroom/:code` — edit metadata.  Validators require the body
fields `title`, `subject` and `subcode` to be non-empty; then a
membership-gated lookup, then the author check `author._id != caller`, then
`findOneAndUpdate` with `applyEditSet`. -/
def editClassroom (db : List Classroom) (caller : Nat) (code : String)
    (title subject subcode : String) : Response × List Classroom :=
  let errors :=
    (if title = "" then ["title is required"] else []) ++
    (if subject = "" then ["Subject is required"] else []) ++
    (if subcode = "" then ["Subcode is required"] else [])
  if errors.isEmpty then
    match db.find? (fun c => c.code == code && c.joinedUsers.contains caller) with
    | none => (.badRequest "Class does not exist.", db)
    | some classroom =>
      if classroom.author.id != caller then
        (.badRequest "User not authorized.", db)
      else
        match findOneAndUpdate (fun c => c.code == code)
            (applyEditSet title subject subcode) db with
        | (some edited, db2) => (.okClassroom edited, db2)
        | (none, db2) => (.okNull, db2)
  else
    (.validationErrors errors, db)

/-- `DELETE /api/classroom/:code` — delete (author) or leave (member).  After
the membership-gated lookup, the author branch calls `classroom.remove()`
(removal of that document by its `_id`); the member branch runs
`$pull: {joinedUsers: {$in: caller}}` — mongoose casts the non-array `$in`
operand to a one-element array, so every occurrence of the caller is pulled
from `joinedUsers`. -/
def deleteClassroom (db : List Classroom) (caller : Nat) (code : String) :
    Response × List Classroom :=
  match db.find? (fun c => c.code == code && c.joinedUsers.contains caller) with
  | none => (.badRequest "Class does not exist.", db)
  | some classroom =>
    if classroom.author.id == caller then
      (.okMsg "Class deleted successfully.", db.filter (fun b => b.id != classroom.id))
    else
      let r := findOneAndUpdate (fun c => c.code == code)
        (fun c => { c with joinedUsers := c.joinedUsers.filter (fun u => u != caller) }) db
      (.okMsg "Class leaved successfully.", r.2)

/-- `DELETE /api/classroom/:code/:user` — author removes a member.  After the
membership-gated lookup and the author check, the handler pulls the target
from `joinedUsers` without checking that the target is a member or distinct
from the author, and unconditionally answers 200 `User Removed`. -/
def removeUserFromClassroom (db : List Classroom) (caller : Nat) (code : String)
    (target : Nat) : Response × List Classroom :=
  match db.find? (fun c => c.code == code && c.joinedUsers.contains caller) with
  | none => (.badRequest "Class does not exist.", db)
  | some classroom =>
    if classroom.author.id != caller then
      (.badRequest "User not authorized.", db)
    else
      let r := findOneAndUpdate (fun c => c.code == code)
        (fun c => { c with joinedUsers := c.joinedUsers.filter (fun u => u != target) }) db
      (.okMsg "User Removed", r.2)

/-- `GET /api/classroom/:code/users` — list member identities.  After the
membership-gated lookup the handler queries
`User.find({_id: {$in: classroom.users}}).select('-password')` — note
`classroom.users`, the non-schema path again — and assigns the result to
`constjoinedUsers`, a misspelling that declares nothing (a stray global).  It
then responds with `res.json(users)`, but no identifier `users` is declared
anywhere in the module, so evaluating it throws a ReferenceError which the
catch block turns into a 500.  Both branches below the lookup therefore answer
`serverError`; the intended query is kept as the discarded binding. -/
def getClassroomUsers (usersDb : List User) (db : List Classroom) (caller : Nat)
    (code : String) : Response :=
  match db.find? (fun c => c.code == code && c.joinedUsers.contains caller) with
  | none => .badRequest "Class does not exist."
  | some classroom =>
    match classroom.usersPath with
    | none => .serverError
    | some ids =>
      let _constjoinedUsers :=
        (usersDb.filter (fun u => ids.contains u.id)).map User.selectMinusPassword
      .serverError

/-- Sample data: a classroom authored by user 1 with 1 as its only member. -/
def soloClass : Classroom :=
  { id := 0, code := "abc123", title := "Algebra", subject := "Math",
    subCode := "M101", cover := "", author := { id := 1, name := "a", email := "a@x" },
    joinedUsers := [1] }

/-- Sample data: a classroom authored by user 1 with members 1 and 2. -/
def pairClass : Classroom :=
  { id := 1, code := "zz99aa", title := "Physics", subject := "Science",
    subCode := "P201", cover := "", author := { id := 1, name := "a", email := "a@x" },
    joinedUsers := [1, 2] }

/-- Sample data: the author of the sample classrooms, as a full user record. -/
def sampleUser : User :=
  { id := 1, name := "a", email := "a@x", password := "pw" }

/-- When `a` is the only element of `l` satisfying `p`, `find?` returns it. -/
theorem find?_eq_some_of_uniq {α : Type} {p : α → Bool} {l : List α} {a : α}
    (ha : a ∈ l) (hpa : p a = true) (huniq : ∀ b ∈ l, p b = true → b = a) :
    l.find? p = some a := by
  induction l with
  | nil => cases ha
  | cons x xs ih =>
    by_cases hx : p x = true
    · have hxa : x = a := huniq x (List.mem_cons_self x xs) hx
      subst hxa
      exact List.find?_cons_of_pos xs hx
    · have ha' : a ∈ xs := by
        rcases List.mem_cons.mp ha with h | h
        · exact absurd (h ▸ hpa) hx
        · exact h
      rw [List.find?_cons_of_neg xs hx]
      exact ih ha' fun b hb hpb => huniq b (List.mem_cons_of_mem x hb) hpb

/-- Locating the effect of `findOneAndUpdate`: when `find?` returns `a`, the
database splits around the first occurrence of `a` and exactly that occurrence
is rewritten by `f`. -/
theorem findOneAndUpdate_eq {α : Type} {p : α → Bool} (f : α → α) {l : List α}
    {a : α} (h : l.find? p = some a) :
    ∃ l1 l2, l = l1 ++ a :: l2 ∧
      findOneAndUpdate p f l = (some (f a), l1 ++ f a :: l2) := by
  induction l with
  | nil => simp [List.find?] at h
  | cons x xs ih =>
    by_cases hx : p x = true
    · rw [List.find?_cons_of_pos xs hx] at h
      obtain rfl : x = a := Option.some.inj h
      exact ⟨[], xs, rfl, by simp [findOneAndUpdate, hx]⟩
    · rw [List.find?_cons_of_neg xs hx] at h
      obtain ⟨l1, l2, hl, hres⟩ := ih h
      exact ⟨x :: l1, l2, by simp [hl], by simp [findOneAndUpdate, hx, hres]⟩

/-- The membership-gated lookup predicate used by most handlers. -/
theorem gatedPred_eq_true {c : Classroom} {caller : Nat} {code : String}
    (hcode : c.code = code) (hjoin : caller ∈ c.joinedUsers) :
    (c.code == code && c.joinedUsers.contains caller) = true := by
  simp [hcode, List.contains, hjoin]

/-- C1: the claim says a join request by an existing member answers a 400
conflict leaving `joinedUsers` unchanged, and a join by a non-member appends
the caller.  The handler instead reads the non-schema path `classroom.users`,
so both the member (user 1) and the non-member (user 2) join of the sample
classroom answer the 500 server error, with the database unchanged and the
caller never appended. -/
theorem joinClassroom_users_path_bug :
    joinClassroom [soloClass] 1 "abc123" = (.serverError, [soloClass]) ∧
    joinClassroom [soloClass] 2 "abc123" = (.serverError, [soloClass]) :=
  ⟨rfl, rfl⟩

/-- C2: the claim says the list-members operation returns the identity records
(minus password) of every member.  The handler assigns its query result to the
misspelled `constjoinedUsers` and responds with the undeclared identifier
`users`, so every request that passes the membership gate answers the 500
server error instead — here evaluated for member 1 of the solo classroom and
member 2 of the pair classroom. -/
theorem getClassroomUsers_undeclared_var_bug :
    getClassroomUsers [sampleUser] [soloClass] 1 "abc123" = .serverError ∧
    getClassroomUsers [sampleUser] [pairClass, soloClass] 2 "zz99aa" = .serverError :=
  ⟨rfl, rfl⟩

/-- C3: the claim says an author edit with non-empty fields updates `title`,
`subject` and `subCode`.  The handler's `$set` writes the non-schema path
`subcode`, which strict mode drops: editing the sample classroom (stored
`subCode = "M101"`) with new sub-code `"M999"` returns a record whose `title`
and `subject` changed but whose `subCode` is still `"M101"`. -/
theorem editClassroom_subCode_not_updated :
    (editClassroom [soloClass] 1 "abc123" "Algebra II" "Math" "M999").1
      = .okClassroom { soloClass with title := "Algebra II", subject := "Math" } ∧
    ({ soloClass with title := "Algebra II", subject := "Math" } : Classroom).subCode
      = "M101" ∧ ("M101" : String) ≠ "M999" :=
  ⟨rfl, rfl, by decide⟩

/-- C7: for a caller who is a member of no classroom, the list operation
answers the empty list with status 200; the `There is no classes` error branch
is dead because a JavaScript array — empty included — is truthy. -/
theorem listClassrooms_nomember_empty_ok (db : List Classroom) (caller : Nat)
    (h : ∀ c ∈ db, caller ∉ c.joinedUsers) :
    listClassrooms db caller = .okClassrooms [] ∧
    (listClassrooms db caller).status = 200 := by
  have hfilter : db.filter (fun c => c.joinedUsers.contains caller) = [] := by
    rw [List.filter_eq_nil_iff]
    intro c hc
    simp only [List.contains, List.elem_iff]
    exact h c hc
  refine ⟨?_, ?_⟩ <;>
    simp [listClassrooms, jsArrayIsFalsy, hfilter, Response.status]
  exact h

/-- Witness for C7 at a concrete input: user 7 belongs to no classroom of the
sample database, and listing answers the empty list with status 200. -/
theorem listClassrooms_nomember_empty_ok_witness :
    listClassrooms [soloClass, pairClass] 7 = .okClassrooms [] ∧
    (listClassrooms [soloClass, pairClass] 7).status = 200 :=
  listClassrooms_nomember_empty_ok [soloClass, pairClass] 7 (by decide)

/-- C8: get-by-code answers a classroom record exactly when a classroom with
that code exists and the caller is in its `joinedUsers`; in every other case —
no such code, or code present but caller not a member — it answers the one
message `Class does not exist.`, so nothing distinguishes not-found from
forbidden. -/
theorem getClassroomByCode_gated (db : List Classroom) (caller : Nat)
    (code : String) :
    ((∃ c, getClassroomByCode db caller code = .okClassroom c) ↔
      ∃ c ∈ db, c.code = code ∧ caller ∈ c.joinedUsers) ∧
    ((¬ ∃ c ∈ db, c.code = code ∧ caller ∈ c.joinedUsers) →
      getClassroomByCode db caller code = .badRequest "Class does not exist.") := by
  constructor
  · constructor
    · rintro ⟨c, hc⟩
      unfold getClassroomByCode at hc
      cases hfind : db.find? (fun b => b.code == code && b.joinedUsers.contains caller) with
      | none => rw [hfind] at hc; cases hc
      | some c' =>
        rw [hfind] at hc
        have hc' : c' = c := by injection hc
        subst hc'
        have hmem := List.mem_of_find?_eq_some hfind
        have hp := List.find?_some hfind
        simp only [Bool.and_eq_true, beq_iff_eq, List.contains, List.elem_iff] at hp
        exact ⟨c', hmem, hp.1, hp.2⟩
    · rintro ⟨c, hmem, hcode, hjoin⟩
      unfold getClassroomByCode
      cases hfind : db.find? (fun b => b.code == code && b.joinedUsers.contains caller) with
      | none =>
        have := List.find?_eq_none.mp hfind c hmem
        exact absurd (gatedPred_eq_true hcode hjoin) this
      | some c' => exact ⟨c', rfl⟩
  · intro hne
    unfold getClassroomByCode
    cases hfind : db.find? (fun b => b.code == code && b.joinedUsers.contains caller) with
    | none => rfl
    | some c' =>
      have hmem := List.mem_of_find?_eq_some hfind
      have hp := List.find?_some hfind
      simp only [Bool.and_eq_true, beq_iff_eq, List.contains, List.elem_iff] at hp
      exact absurd ⟨c', hmem, hp.1, hp.2⟩ hne

/-- Witness for C8 at a concrete input: user 2 is not a member of the solo
classroom, and get-by-code answers the uniform not-found message. -/
theorem getClassroomByCode_gated_witness :
    getClassroomByCode [soloClass] 2 "abc123" = .badRequest "Class does not exist." :=
  (getClassroomByCode_gated [soloClass] 2 "abc123").2 (by decide)

/-- The generated join code has exactly the requested length. -/
theorem randomaticAA0_length (len : Nat) (pick : Nat → Fin 62) :
    (randomaticAA0 len pick).length = len := by
  simp [randomaticAA0, String.length]

/-- Every character of the generated join code comes from the generator's
character set. -/
theorem randomaticAA0_mem (len : Nat) (pick : Nat → Fin 62) :
    ∀ ch ∈ (randomaticAA0 len pick).toList, ch ∈ randomaticChars := by
  intro ch hch
  simp only [randomaticAA0, String.toList, List.mem_map, List.mem_range] at hch
  obtain ⟨i, _, rfl⟩ := hch
  exact List.get_mem _ _ _

/-- C5: a member who is not the author gets `User not authorized.` from the
edit endpoint and the database is left untouched. -/
theorem editClassroom_nonauthor_unauthorized (db : List Classroom) (caller : Nat)
    (code title subject subcode : String) (c : Classroom)
    (hmem : c ∈ db) (hcode : c.code = code)
    (huniq : ∀ b ∈ db, b.code = code → b = c)
    (hjoin : caller ∈ c.joinedUsers) (hauth : c.author.id ≠ caller)
    (ht : title ≠ "") (hs : subject ≠ "") (hsc : subcode ≠ "") :
    editClassroom db caller code title subject subcode
      = (.badRequest "User not authorized.", db) := by
  have hfind : db.find? (fun b => b.code == code && b.joinedUsers.contains caller)
      = some c :=
    find?_eq_some_of_uniq hmem (gatedPred_eq_true hcode hjoin) fun b hb hpb => by
      have hb' : b.code = code := by
        simp only [Bool.and_eq_true, beq_iff_eq] at hpb
        exact hpb.1
      exact huniq b hb hb'
  have hfind' : db.find? (fun b => b.code == code && decide (caller ∈ b.joinedUsers))
      = some c := by simpa using hfind
  simp [editClassroom, ht, hs, hsc, hfind', bne_iff_ne, hauth]

/-- Witness for C5 at a concrete input: user 2 is a member, but not the
author, of the pair classroom; editing it answers `User not authorized.` and
changes nothing. -/
theorem editClassroom_nonauthor_unauthorized_witness :
    editClassroom [pairClass] 2 "zz99aa" "T" "S" "C"
      = (.badRequest "User not authorized.", [pairClass]) :=
  editClassroom_nonauthor_unauthorized [pairClass] 2 "zz99aa" "T" "S" "C" pairClass
    (by decide) rfl (by decide) (by decide) (by decide) (by decide) (by decide)
    (by decide)

/-- C6: a create request by an existing caller yields a record whose `author`
is the caller's identity (minus password) and whose `joinedUsers` is exactly
the one-element list holding the caller, and that record is both returned and
appended to the store. -/
theorem createClassroom_author_and_membership (usersDb : List User)
    (db : List Classroom) (caller : Nat) (title subject subCode cover : String)
    (pick : Nat → Fin 62) (newId : Nat) (u : User)
    (hfind : usersDb.find? (fun v => v.id == caller) = some u) :
    ∃ c', createClassroom usersDb db caller title subject subCode cover pick newId
        = (.okClassroom c', db ++ [c']) ∧
      c'.author = u.selectMinusPassword ∧ c'.author.id = caller ∧
      c'.joinedUsers = [caller] := by
  have hid : u.id = caller := by
    have hp := List.find?_some hfind
    simpa using hp
  refine ⟨{ id := newId, code := randomaticAA0 6 pick, title := title,
            subject := subject, subCode := subCode, cover := cover,
            author := u.selectMinusPassword,
            joinedUsers := [u.selectMinusPassword.id] }, ?_, rfl, hid, ?_⟩
  · simp [createClassroom, hfind]
  · simp [User.selectMinusPassword, hid]

/-- Witness for C6 at a concrete input: user 1 creates a classroom on an empty
store. -/
theorem createClassroom_author_and_membership_witness :
    ∃ c', createClassroom [sampleUser] [] 1 "Algebra" "Math" "M101" ""
        (fun _ => 0) 5 = (.okClassroom c', [] ++ [c']) ∧
      c'.author = sampleUser.selectMinusPassword ∧ c'.author.id = 1 ∧
      c'.joinedUsers = [1] :=
  createClassroom_author_and_membership [sampleUser] [] 1 "Algebra" "Math" "M101"
    "" (fun _ => 0) 5 sampleUser rfl

/-- C9: every classroom the create operation returns carries a join code of
exactly 6 characters, each a lower-case letter, an upper-case letter or a
digit. -/
theorem createClassroom_code_charset (usersDb : List User) (db : List Classroom)
    (caller : Nat) (title subject subCode cover : String) (pick : Nat → Fin 62)
    (newId : Nat) (c' : Classroom)
    (h : (createClassroom usersDb db caller title subject subCode cover pick newId).1
      = .okClassroom c') :
    c'.code.length = 6 ∧
    ∀ ch ∈ c'.code.toList,
      ('a' ≤ ch ∧ ch ≤ 'z') ∨ ('A' ≤ ch ∧ ch ≤ 'Z') ∨ ('0' ≤ ch ∧ ch ≤ '9') := by
  have hcode : c'.code = randomaticAA0 6 pick := by
    unfold createClassroom at h
    cases hfind : usersDb.find? (fun u => u.id == caller) with
    | none => rw [hfind] at h; cases h
    | some u =>
      rw [hfind] at h
      injection h with h'
      exact (congrArg Classroom.code h').symm
  have hset : ∀ ch ∈ randomaticChars,
      ('a' ≤ ch ∧ ch ≤ 'z') ∨ ('A' ≤ ch ∧ ch ≤ 'Z') ∨ ('0' ≤ ch ∧ ch ≤ '9') := by
    decide
  constructor
  · rw [hcode]
    exact randomaticAA0_length 6 pick
  · intro ch hch
    rw [hcode] at hch
    exact hset ch (randomaticAA0_mem 6 pick ch hch)

/-- Witness for C9 at a concrete input: the code generated for a concrete
create request has length 6. -/
theorem createClassroom_code_charset_witness :
    (randomaticAA0 6 (fun _ => 0)).length = 6 := by
  have h := createClassroom_code_charset [sampleUser] [] 1 "t" "s" "c" ""
    (fun _ => 0) 0
    { id := 0, code := randomaticAA0 6 (fun _ => 0), title := "t", subject := "s",
      subCode := "c", cover := "", author := sampleUser.selectMinusPassword,
      joinedUsers := [1] } rfl
  exact h.1

/-- The lookup-by-code predicate used by `findOneAndUpdate`. -/
theorem codeFind?_eq_some {db : List Classroom} {c : Classroom} {code : String}
    (hmem : c ∈ db) (hcode : c.code = code)
    (huniq : ∀ b ∈ db, b.code = code → b = c) :
    db.find? (fun b => b.code == code) = some c :=
  find?_eq_some_of_uniq hmem (by simp [hcode]) fun b hb hpb =>
    huniq b hb (by simpa using hpb)

/-- C4: when the classroom's code is unique and the caller is a member, a
delete request by the author removes the record — so a later get-by-code
answers not-found for every caller — while a delete request by a non-author
member leaves the record in place with exactly the caller pulled from
`joinedUsers`, every other member kept; the two branches answer the distinct
messages `Class deleted successfully.` and `Class leaved successfully.`. -/
theorem deleteClassroom_author_or_leave (db : List Classroom) (caller : Nat)
    (code : String) (c : Classroom) (hmem : c ∈ db) (hcode : c.code = code)
    (huniq : ∀ b ∈ db, b.code = code → b = c) (hjoin : caller ∈ c.joinedUsers) :
    (c.author.id = caller →
      deleteClassroom db caller code
        = (.okMsg "Class deleted successfully.", db.filter (fun b => b.id != c.id)) ∧
      ∀ m : Nat, getClassroomByCode (deleteClassroom db caller code).2 m code
        = .badRequest "Class does not exist.") ∧
    (c.author.id ≠ caller →
      (deleteClassroom db caller code).1 = .okMsg "Class leaved successfully." ∧
      ∃ c' ∈ (deleteClassroom db caller code).2,
        c'.id = c.id ∧
        c'.joinedUsers = c.joinedUsers.filter (fun u => u != caller) ∧
        caller ∉ c'.joinedUsers ∧
        ∀ m ∈ c.joinedUsers, m ≠ caller → m ∈ c'.joinedUsers) := by
  have hfind : db.find? (fun b => b.code == code && b.joinedUsers.contains caller)
      = some c :=
    find?_eq_some_of_uniq hmem (gatedPred_eq_true hcode hjoin) fun b hb hpb => by
      have hb' : b.code = code := by
        simp only [Bool.and_eq_true, beq_iff_eq] at hpb
        exact hpb.1
      exact huniq b hb hb'
  have hfind' : db.find? (fun b => b.code == code && decide (caller ∈ b.joinedUsers))
      = some c := by simpa using hfind
  constructor
  · intro hauth
    have hdel : deleteClassroom db caller code
        = (.okMsg "Class deleted successfully.", db.filter (fun b => b.id != c.id)) := by
      simp [deleteClassroom, hfind', hauth]
    refine ⟨hdel, ?_⟩
    intro m
    have hnone : (db.filter (fun b => b.id != c.id)).find?
        (fun b => b.code == code && b.joinedUsers.contains m) = none := by
      apply List.find?_eq_none.mpr
      intro x hx hpx
      have hxdb : x ∈ db := (List.mem_filter.mp hx).1
      have hxid : (x.id != c.id) = true := (List.mem_filter.mp hx).2
      have hxcode : x.code = code := by
        simp only [Bool.and_eq_true, beq_iff_eq] at hpx
        exact hpx.1
      have hxc : x = c := huniq x hxdb hxcode
      subst hxc
      simp at hxid
    rw [hdel]
    simp only [getClassroomByCode, hnone]
  · intro hauth
    have hfind2 : db.find? (fun b => b.code == code) = some c :=
      codeFind?_eq_some hmem hcode huniq
    obtain ⟨l1, l2, _, hres⟩ := findOneAndUpdate_eq
      (fun b => { b with joinedUsers := b.joinedUsers.filter (fun u => u != caller) })
      hfind2
    have hdel : deleteClassroom db caller code
        = (.okMsg "Class leaved successfully.",
           l1 ++ { c with joinedUsers := c.joinedUsers.filter (fun u => u != caller) } :: l2) := by
      simp [deleteClassroom, hfind', hauth, hres]
    refine ⟨by rw [hdel], ?_⟩
    refine ⟨{ c with joinedUsers := c.joinedUsers.filter (fun u => u != caller) },
      ?_, rfl, rfl, ?_, ?_⟩
    · rw [hdel]
      exact List.mem_append_right l1 (List.mem_cons_self _ _)
    · intro hcaller
      have := (List.mem_filter.mp hcaller).2
      simp at this
    · intro m hm hne
      exact List.mem_filter.mpr ⟨hm, by simpa using hne⟩

/-- Witness for C4 at a concrete input: user 2 — a member, not the author — of
the pair classroom leaves it, getting the leave message. -/
theorem deleteClassroom_author_or_leave_witness :
    (deleteClassroom [pairClass] 2 "zz99aa").1 = .okMsg "Class leaved successfully." :=
  ((deleteClassroom_author_or_leave [pairClass] 2 "zz99aa" pairClass (by decide)
    rfl (by decide) (by decide)).2 (by decide)).1

/-- C10: the remove-member endpoint checks neither that the target is a member
nor that the target differs from the author: for any target at all — member or
not — the author's request is answered with the success message `User Removed`,
and when the author names themself as the target they are pulled from
`joinedUsers` while the classroom record persists, so author membership is not
an invariant preserved by every operation. -/
theorem removeUser_no_target_check (db : List Classroom) (caller : Nat)
    (code : String) (c : Classroom) (hmem : c ∈ db) (hcode : c.code = code)
    (huniq : ∀ b ∈ db, b.code = code → b = c) (hjoin : caller ∈ c.joinedUsers)
    (hauthor : c.author.id = caller) :
    ∀ target : Nat,
      (removeUserFromClassroom db caller code target).1 = .okMsg "User Removed" ∧
      (target = caller →
        ∃ c' ∈ (removeUserFromClassroom db caller code target).2,
          c'.id = c.id ∧ caller ∉ c'.joinedUsers) := by
  intro target
  have hfind : db.find? (fun b => b.code == code && b.joinedUsers.contains caller)
      = some c :=
    find?_eq_some_of_uniq hmem (gatedPred_eq_true hcode hjoin) fun b hb hpb => by
      have hb' : b.code = code := by
        simp only [Bool.and_eq_true, beq_iff_eq] at hpb
        exact hpb.1
      exact huniq b hb hb'
  have hfind' : db.find? (fun b => b.code == code && decide (caller ∈ b.joinedUsers))
      = some c := by simpa using hfind
  have hfind2 : db.find? (fun b => b.code == code) = some c :=
    codeFind?_eq_some hmem hcode huniq
  obtain ⟨l1, l2, _, hres⟩ := findOneAndUpdate_eq
    (fun b => { b with joinedUsers := b.joinedUsers.filter (fun u => u != target) })
    hfind2
  have hrun : removeUserFromClassroom db caller code target
      = (.okMsg "User Removed",
         l1 ++ { c with joinedUsers := c.joinedUsers.filter (fun u => u != target) } :: l2) := by
    simp [removeUserFromClassroom, hfind', hauthor, hres]
  refine ⟨by rw [hrun], ?_⟩
  intro htc
  subst htc
  refine ⟨{ c with joinedUsers := c.joinedUsers.filter (fun u => u != target) },
    ?_, rfl, ?_⟩
  · rw [hrun]
    exact List.mem_append_right l1 (List.mem_cons_self _ _)
  · intro hcaller
    have := (List.mem_filter.mp hcaller).2
    simp at this

/-- Witness for C10 at a concrete input: the author of the pair classroom
removes the absent user 9 and still gets `User Removed`. -/
theorem removeUser_no_target_check_witness :
    (removeUserFromClassroom [pairClass] 1 "zz99aa" 9).1 = .okMsg "User Removed" :=
  (removeUser_no_target_check [pairClass] 1 "zz99aa" pairClass (by decide) rfl
    (by decide) (by decide) rfl 9).1

end Manthan
